import Mathlib

/-!
Verification of the paginated infinite-scroll loader
(`useAsyncLoadInfiniteScroll`) from this repository.

The composable is single-threaded and cooperative: the only suspension
point inside an operation is the await on the fetch source, and the
`isLoading` flag gates re-entry.  An awaited call to `loadMore`,
`refetchAll` or `reset`, or a synchronous scroll / viewport-fill check,
is therefore one atomic transformation of the observable state
(`items`, `isLoading`, `error`, `hasMore`, `currentPage`).  We embed
each operation as a pure function from state to state that also reports
the list of fetch-source invocations it performed, as pairs of the page
number passed and the result received.  The deferred viewport-fill
check that `loadMore` schedules on the next render tick is represented
as a separate operation in a sequence, since claims quantify over
arbitrary operation sequences.

The fetch source `fetchItems(page)` resolves to an item array, resolves
to null, or rejects; we model it as a pure function from the page
number to a `FetchResult`.  The rejection value is modelled as a
`String` message; the wrapping of non-Error throwables performed by the
catch blocks is irrelevant to the claims and is not distinguished.
-/

namespace InfiniteScroll

/-- Outcome of one call to the fetch source: a resolved value
(`some` list or `none` for the null "no more data" signal), or a
rejection carrying an error. -/
inductive FetchResult (T : Type) where
  | ok (res : Option (List T))
  | err (msg : String)
deriving Repr, DecidableEq

/-- The caller-supplied fetch source, as a pure page-indexed oracle. -/
abbrev FetchFn (T : Type) := Int → FetchResult T

/-- Record of fetch-source invocations: page passed, result received,
in invocation order. -/
abbrev FetchLog (T : Type) := List (Int × FetchResult T)

/-- Construction-time options of the composable, with the
already-defaulted values (`threshold` 200, `initialPage` 1,
`loadOnMount` true, `maxPage` absent unless supplied). -/
structure Config where
  threshold : Int
  initialPage : Int
  loadOnMount : Bool
  maxPage : Option Int
deriving Repr, DecidableEq

/-- The five reactive state cells of one loader instance. -/
structure LoaderState (T : Type) where
  items : List T
  isLoading : Bool
  error : Option String
  hasMore : Bool
  currentPage : Int
deriving Repr, DecidableEq

/-- State right after construction: `items` empty, nothing loading, no
error, `hasMore` true, `currentPage` at the configured initial page. -/
def initState (T : Type) (cfg : Config) : LoaderState T :=
  { items := []
    isLoading := false
    error := none
    hasMore := true
    currentPage := cfg.initialPage }

/-- The guard `maxPage !== undefined && currentPage.value > maxPage`
shared by `loadMore` and `checkScroll`. -/
def maxPageReached (cfg : Config) (page : Int) : Bool :=
  match cfg.maxPage with
  | some m => decide (m < page)
  | none => false

/-- One awaited run of `loadMore`.  Inside the try block the code sets
`isLoading` true and clears `error`, awaits the fetch source on
`currentPage`, then either marks exhaustion (null or empty result) or
appends the page and increments `currentPage`; the catch block stores
the error and the finally block sets `isLoading` false again.  The pair
returned is the post-state together with the fetch invocations made
(none on the guard paths, exactly one otherwise). -/
def loadMore (T : Type) (cfg : Config) (fetch : FetchFn T)
    (s : LoaderState T) : LoaderState T × FetchLog T :=
  if s.isLoading || !s.hasMore then (s, [])
  else if maxPageReached cfg s.currentPage then
    ({ s with hasMore := false }, [])
  else
    match fetch s.currentPage with
    | .err e =>
        ({ s with isLoading := false, error := some e },
         [(s.currentPage, .err e)])
    | .ok none =>
        ({ s with isLoading := false, error := none, hasMore := false },
         [(s.currentPage, .ok none)])
    | .ok (some l) =>
        if l.length = 0 then
          ({ s with isLoading := false, error := none, hasMore := false },
           [(s.currentPage, .ok (some l))])
        else
          ({ s with
              isLoading := false
              error := none
              items := s.items ++ l
              currentPage := s.currentPage + 1 },
           [(s.currentPage, .ok (some l))])

/-- Items carried by one fetch result (empty for null or rejection). -/
def pageList (T : Type) : FetchResult T → List T
  | .ok (some l) => l
  | _ => []

/-- Concatenation, in fetch order, of the pages returned in a log. -/
def returnedItems (T : Type) : FetchLog T → List T
  | [] => []
  | e :: rest => pageList T e.2 ++ returnedItems T rest

/-- Whether a fetch result is a resolved non-empty page. -/
def nonEmptyOk (T : Type) : FetchResult T → Bool
  | .ok (some (_ :: _)) => true
  | _ => false

/-- Whether a fetch result is a resolution rather than a rejection
(the resolved value may still be an empty or null page). -/
def notErr (T : Type) : FetchResult T → Bool
  | .err _ => false
  | .ok _ => true

/-- Budget of fetches still possible from a state under the cap
`maxPage = N` when the fetch source never rejects and neither
`refetchAll` nor `reset` runs: zero once `hasMore` is false, else one
per remaining page up to `N`.  Each fetch happens at
`currentPage ≤ N` and either advances `currentPage` (non-empty page)
or clears `hasMore` (empty or null page), so each fetch consumes at
least one unit of this budget. -/
def fetchesLeft (T : Type) (N : Int) (s : LoaderState T) : Nat :=
  if s.hasMore = true then (N + 1 - s.currentPage).toNat else 0

/-- Outcome of the while loop inside `refetchAll`.  `finished` carries
the accumulator, the page counter at loop exit, and whether the loop
ran the break branch (which also set `hasMore` false); `failed` means
the awaited fetch rejected, aborting the loop by exception.  Both carry
the fetch invocations performed. -/
inductive LoopOut (T : Type) where
  | finished (acc : List T) (page : Int) (brokeEarly : Bool) (log : FetchLog T)
  | failed (msg : String) (log : FetchLog T)
deriving Repr, DecidableEq

/-- The while loop of `refetchAll`: while `page <= targetPage`, await
the fetch source on `page`; on null or empty result set `hasMore`
false and break; on rejection the exception aborts the loop; otherwise
append the page to the accumulator and increment `page`.  The `fuel`
argument only bounds recursion; callers pass the exact iteration count
`(targetPage + 1 - page).toNat`, so the fuel-exhausted first branch
coincides with the loop condition turning false. -/
def refetchLoop (T : Type) (fetch : FetchFn T) (targetPage : Int) :
    Nat → Int → List T → LoopOut T
  | 0, page, acc => .finished acc page false []
  | fuel + 1, page, acc =>
    if page ≤ targetPage then
      match fetch page with
      | .err e => .failed e [(page, .err e)]
      | .ok none => .finished acc page true [(page, .ok none)]
      | .ok (some l) =>
        if l.length = 0 then .finished acc page true [(page, .ok (some l))]
        else
          match refetchLoop T fetch targetPage fuel (page + 1) (acc ++ l) with
          | .finished a p b log => .finished a p b ((page, .ok (some l)) :: log)
          | .failed e log => .failed e ((page, .ok (some l)) :: log)
    else .finished acc page false []

/-- One awaited run of `refetchAll`.  It returns at once if a fetch is
in flight.  Otherwise it fixes `targetPage = currentPage - 1`, sets
`isLoading` true, clears `error` and `items`, and runs the re-fetch
loop from `initialPage`.  If the loop finishes, `items` becomes the
accumulator, `currentPage` becomes the page reached, and `hasMore` is
recomputed by the two-branch conditional of the source; if a fetch
rejected, the catch block stores the error while `items` stays cleared
and `currentPage` and `hasMore` keep their previous values.  The
finally block sets `isLoading` false on both paths. -/
def refetchAll (T : Type) (cfg : Config) (fetch : FetchFn T)
    (s : LoaderState T) : LoaderState T × FetchLog T :=
  if s.isLoading then (s, [])
  else
    let targetPage := s.currentPage - 1
    match refetchLoop T fetch targetPage
        (targetPage + 1 - cfg.initialPage).toNat cfg.initialPage [] with
    | .finished acc page brokeEarly log =>
        let hMid : Bool := if brokeEarly then false else s.hasMore
        let hFinal : Bool :=
          if hMid = false ∧ page ≤ targetPage then false
          else if targetPage < page then true
          else hMid
        ({ items := acc
           isLoading := false
           error := none
           hasMore := hFinal
           currentPage := page }, log)
    | .failed e log =>
        ({ items := []
           isLoading := false
           error := some e
           hasMore := s.hasMore
           currentPage := s.currentPage }, log)

/-- The `reset` operation: clears `items` and `error`, restores
`currentPage` to `initialPage` and `hasMore` to true (it does not
touch `isLoading`), then fires `loadMore` when `loadOnMount` is
configured. -/
def reset (T : Type) (cfg : Config) (fetch : FetchFn T)
    (s : LoaderState T) : LoaderState T × FetchLog T :=
  let s1 : LoaderState T :=
    { items := []
      isLoading := s.isLoading
      error := none
      hasMore := true
      currentPage := cfg.initialPage }
  if cfg.loadOnMount then loadMore T cfg fetch s1 else (s1, [])

/-- Geometry of the observed element as read by `checkScroll`. -/
structure ScrollElem where
  scrollTop : Int
  scrollHeight : Int
  clientHeight : Int
deriving Repr, DecidableEq

/-- Geometry of the observed element as read by
`checkIfNeedsMoreContent`. -/
structure FillElem where
  scrollHeight : Int
  clientHeight : Int
deriving Repr, DecidableEq

/-- The scroll proximity check (`checkScroll`): returns at once when
the observed element is absent, a fetch is in flight, or `hasMore` is
false; marks exhaustion when past `maxPage`; otherwise triggers
`loadMore` when scrolled to within `threshold` of the bottom. -/
def checkScroll (T : Type) (cfg : Config) (fetch : FetchFn T)
    (elem : Option ScrollElem) (s : LoaderState T) :
    LoaderState T × FetchLog T :=
  match elem with
  | none => (s, [])
  | some el =>
    if s.isLoading || !s.hasMore then (s, [])
    else if maxPageReached cfg s.currentPage then
      ({ s with hasMore := false }, [])
    else if el.scrollHeight - el.scrollTop - el.clientHeight < cfg.threshold then
      loadMore T cfg fetch s
    else (s, [])

/-- The viewport-fill check (`checkIfNeedsMoreContent`): returns at
once when the observed element is absent, a fetch is in flight, or
`hasMore` is false; otherwise triggers `loadMore` when the content
does not overflow the visible height. -/
def checkFill (T : Type) (cfg : Config) (fetch : FetchFn T)
    (elem : Option FillElem) (s : LoaderState T) :
    LoaderState T × FetchLog T :=
  match elem with
  | none => (s, [])
  | some el =>
    if s.isLoading || !s.hasMore then (s, [])
    else if el.scrollHeight ≤ el.clientHeight then loadMore T cfg fetch s
    else (s, [])

/-- One externally observable operation on a loader instance.  Scroll
and fill checks carry the element geometry observed at that moment
(`none` when the element reference is null). -/
inductive Op where
  | opLoadMore
  | opScroll (elem : Option ScrollElem)
  | opFill (elem : Option FillElem)
  | opRefetchAll
  | opReset
deriving Repr, DecidableEq

/-- Dispatch one operation. -/
def stepOp (T : Type) (cfg : Config) (fetch : FetchFn T) :
    Op → LoaderState T → LoaderState T × FetchLog T
  | .opLoadMore, s => loadMore T cfg fetch s
  | .opScroll el, s => checkScroll T cfg fetch el s
  | .opFill el, s => checkFill T cfg fetch el s
  | .opRefetchAll, s => refetchAll T cfg fetch s
  | .opReset, s => reset T cfg fetch s

/-- Run a sequence of operations, concatenating their fetch logs. -/
def runOps (T : Type) (cfg : Config) (fetch : FetchFn T) :
    List Op → LoaderState T → LoaderState T × FetchLog T
  | [], s => (s, [])
  | op :: rest, s =>
    let r1 := stepOp T cfg fetch op s
    let r2 := runOps T cfg fetch rest r1.1
    (r2.1, r1.2 ++ r2.2)

/-!
Model of the `throttle` helper wrapped around `checkScroll`.

The closure keeps two mutable slots: `lastRan`, the clock reading at
the last execution of the wrapped function (initially undefined), and
one pending timeout.  A call first checks `!lastRan` (JavaScript
truthiness: undefined and 0 are both falsy) and, when falsy, runs the
function immediately and records the time; otherwise it cancels the
pending timeout and schedules a new one with delay
`limit - (now - lastRan)` (negative delays fire as soon as possible,
so the fire time is `max now (lastRan + limit)`), whose callback runs
the function only if `now - lastRan >= limit` holds at fire time.

Timestamps are the values of `Date.now()`, modelled as naturals.  We
process a nondecreasing list of call times; a pending timeout that is
due fires before the next call is handled, and a timeout still pending
after the last call fires at its scheduled time.  The model returns
the times at which the wrapped function actually executed.
-/

/-- Mutable slots captured by the throttle closure: the time of the
last execution (`none` while still undefined) and the fire time of
the pending timeout, if one is set. -/
structure ThrottleState where
  lastRan : Option Nat
  timer : Option Nat
deriving Repr, DecidableEq

/-- JavaScript truthiness test `!lastRan`: true for undefined and 0. -/
def lastRanFalsy : Option Nat → Bool
  | none => true
  | some n => n == 0

/-- Fire the pending timeout if its scheduled time has arrived.  The
callback compares the clock at fire time against `lastRan` and runs
the wrapped function only if at least `limit` has elapsed. -/
def fireDue (limit : Nat) (s : ThrottleState) (now : Nat) :
    ThrottleState × List Nat :=
  match s.timer with
  | none => (s, [])
  | some tf =>
    if tf ≤ now then
      if (limit : Int) ≤ (tf : Int) - (s.lastRan.getD 0 : Nat) then
        ({ lastRan := some tf, timer := none }, [tf])
      else ({ s with timer := none }, [])
    else (s, [])

/-- Handle one call of the throttled function at time `t`: first let a
due timeout fire, then either execute immediately (`lastRan` falsy) or
replace the pending timeout with one scheduled for
`max t (lastRan + limit)`. -/
def throttleCall (limit : Nat) (s : ThrottleState) (t : Nat) :
    ThrottleState × List Nat :=
  let r := fireDue limit s t
  if lastRanFalsy r.1.lastRan then
    ({ r.1 with lastRan := some t }, r.2 ++ [t])
  else
    ({ lastRan := r.1.lastRan
       timer := some (max t (r.1.lastRan.getD 0 + limit)) }, r.2)

/-- Process a time-ordered list of calls. -/
def throttleRun (limit : Nat) : List Nat → ThrottleState →
    ThrottleState × List Nat
  | [], s => (s, [])
  | t :: rest, s =>
    let r1 := throttleCall limit s t
    let r2 := throttleRun limit rest r1.1
    (r2.1, r1.2 ++ r2.2)

/-- After the last call, a still-pending timeout fires at its
scheduled time. -/
def throttleFlush (limit : Nat) (s : ThrottleState) : List Nat :=
  match s.timer with
  | none => []
  | some tf =>
    if (limit : Int) ≤ (tf : Int) - (s.lastRan.getD 0 : Nat) then [tf] else []

/-- Execution times of the wrapped function produced by a time-ordered
burst of calls against a freshly created throttle. -/
def throttleTrace (limit : Nat) (calls : List Nat) : List Nat :=
  let r := throttleRun limit calls { lastRan := none, timer := none }
  r.2 ++ throttleFlush limit r.1

/-!
Concrete fixtures used to evaluate the model at specific inputs.
-/

/-- A configuration with all defaults and no page cap. -/
def cfgBase : Config :=
  { threshold := 200, initialPage := 1, loadOnMount := true, maxPage := none }

/-- The base configuration capped at `maxPage = 1`. -/
def cfgCap1 : Config :=
  { threshold := 200, initialPage := 1, loadOnMount := true, maxPage := some 1 }

/-- The base configuration capped at `maxPage = 2`. -/
def cfgCap2 : Config :=
  { threshold := 200, initialPage := 1, loadOnMount := true, maxPage := some 2 }

/-- Fetch source: page 1 has `[10]`, page 2 has `[20, 30]`, pages past
2 resolve to null. -/
def fetchTwoPages : FetchFn Nat := fun p =>
  if p = 1 then .ok (some [10])
  else if p = 2 then .ok (some [20, 30])
  else .ok none

/-- Fetch source: page 1 has `[7]`, every later page is empty. -/
def fetchOneThenEmpty : FetchFn Nat := fun p =>
  if p = 1 then .ok (some [7]) else .ok (some [])

/-- Fetch source: every page is empty. -/
def fetchAllEmpty : FetchFn Nat := fun _ => .ok (some [])

/-- Fetch source: every page resolves to the one-element list `[1]`. -/
def fetchAllOnes : FetchFn Nat := fun _ => .ok (some [1])

/-- Fetch source: every request rejects. -/
def fetchAllErr : FetchFn Nat := fun _ => .err "network"

/-- Fetch source: page 1 has `[5]`, every later page rejects. -/
def fetchOkThenErr : FetchFn Nat := fun p =>
  if p = 1 then .ok (some [5]) else .err "boom"

/-!
Theorems.
-/

/-- C4 counterexample: from a state in which a fetch is already in
flight (`isLoading` true, reachable because a scroll event can invoke
`loadMore` while an earlier call is suspended on its await), the new
invocation returns through the in-flight guard, which precedes the
try block, so the finally block never runs and `isLoading` is still
true when this invocation completes. -/
theorem loadMore_inflight_counterexample :
    (loadMore Nat cfgBase fetchTwoPages
      { items := [], isLoading := true, error := none, hasMore := true,
        currentPage := 1 }).1.isLoading = true := by
  rfl

/-- C4 (amended): when no fetch is in flight at entry, every path of
`loadMore` — success, exhaustion, rejection, the `hasMore` guard and
the `maxPage` guard — completes with `isLoading` false; when a fetch
is already in flight, `loadMore` returns immediately leaving the
state, including the true `isLoading` flag, unchanged. -/
theorem loadMore_isLoading_after (T : Type) (cfg : Config)
    (fetch : FetchFn T) (s : LoaderState T) :
    (s.isLoading = false → (loadMore T cfg fetch s).1.isLoading = false) ∧
    (s.isLoading = true → loadMore T cfg fetch s = (s, [])) := by
  constructor
  · intro h
    simp only [loadMore, h, Bool.false_or]
    cases hm : s.hasMore with
    | false => simpa using h
    | true =>
      simp only [Bool.not_true, Bool.false_eq_true, if_false]
      by_cases hmax : maxPageReached cfg s.currentPage
      · simp [hmax]
      · simp only [hmax, Bool.false_eq_true, if_false]
        cases hf : fetch s.currentPage with
        | err e => simp
        | ok r =>
          cases r with
          | none => simp
          | some l => by_cases hl : l.length = 0 <;> simp [hl]
  · intro h
    simp [loadMore, h]

/-- C4 witness: the amended theorem evaluated on the base
configuration at the freshly constructed state. -/
theorem loadMore_isLoading_after_witness :
    (loadMore Nat cfgBase fetchTwoPages
      (initState Nat cfgBase)).1.isLoading = false :=
  (loadMore_isLoading_after Nat cfgBase fetchTwoPages
    (initState Nat cfgBase)).1 rfl

/-- C6: from a state with no fetch in flight, `hasMore` true and the
`maxPage` guard not firing, a rejecting fetch leaves the rejection in
`error`, keeps `hasMore` true, keeps `items` and `currentPage`
unchanged (so the next call retries the same page), clears `isLoading`,
and performs exactly that one fetch.  `loadMore` is embedded as a
total function into states, reflecting that the catch block swallows
the exception instead of propagating it to the caller. -/
theorem loadMore_error_captured (T : Type) (cfg : Config)
    (fetch : FetchFn T) (s : LoaderState T) (e : String)
    (hload : s.isLoading = false) (hmore : s.hasMore = true)
    (hmax : maxPageReached cfg s.currentPage = false)
    (herr : fetch s.currentPage = .err e) :
    (loadMore T cfg fetch s).1.error = some e ∧
    (loadMore T cfg fetch s).1.hasMore = true ∧
    (loadMore T cfg fetch s).1.isLoading = false ∧
    (loadMore T cfg fetch s).1.items = s.items ∧
    (loadMore T cfg fetch s).1.currentPage = s.currentPage ∧
    (loadMore T cfg fetch s).2 = [(s.currentPage, .err e)] := by
  simp [loadMore, hload, hmore, hmax, herr]

/-- C6 witness: the theorem evaluated on the base configuration with
an always-rejecting fetch source at the freshly constructed state. -/
theorem loadMore_error_captured_witness :
    (loadMore Nat cfgBase fetchAllErr (initState Nat cfgBase)).1.error
      = some "network" :=
  (loadMore_error_captured Nat cfgBase fetchAllErr (initState Nat cfgBase)
    "network" rfl rfl rfl rfl).1

/-- C10: from any state with no fetch in flight and `currentPage`
still at `initialPage`, `refetchAll` has target page
`initialPage - 1`, so its loop performs zero fetches, and it leaves
`items` empty, `currentPage` at `initialPage`, `error` cleared,
`isLoading` false, and `hasMore` set to true even if it was false
before. -/
theorem refetchAll_nothing_loaded (T : Type) (cfg : Config)
    (fetch : FetchFn T) (s : LoaderState T)
    (hload : s.isLoading = false)
    (hpage : s.currentPage = cfg.initialPage) :
    refetchAll T cfg fetch s =
      ({ items := [], isLoading := false, error := none, hasMore := true,
         currentPage := cfg.initialPage }, []) := by
  have hfuel : (cfg.initialPage - 1 + 1 - cfg.initialPage).toNat = 0 := by
    omega
  simp [refetchAll, hload, hpage, hfuel, refetchLoop,
    show ¬(cfg.initialPage ≤ cfg.initialPage - 1) from by omega,
    show cfg.initialPage - 1 < cfg.initialPage from by omega]

/-- C10 witness: the theorem evaluated at a state whose previous load
attempt found no data at all (`hasMore` false, stale error). -/
theorem refetchAll_nothing_loaded_witness :
    refetchAll Nat cfgBase fetchTwoPages
      { items := [], isLoading := false, error := some "stale",
        hasMore := false, currentPage := 1 } =
      ({ items := [], isLoading := false, error := none, hasMore := true,
         currentPage := 1 }, []) :=
  refetchAll_nothing_loaded Nat cfgBase fetchTwoPages
    { items := [], isLoading := false, error := some "stale",
      hasMore := false, currentPage := 1 } rfl rfl

/-- C8: after pages 1 and 2 were loaded (`currentPage = 3`, items the
two pages concatenated, nothing in flight), `refetchAll` against a
fetch source still returning the same non-empty pages invokes it for
page 1 and then page 2, exactly in that order, and finishes with
`items` rebuilt to the same concatenation, `currentPage = 3` and
`hasMore` true. -/
theorem refetchAll_rebuilds_two_pages (T : Type) (cfg : Config)
    (fetch : FetchFn T) (l1 l2 : List T)
    (hinit : cfg.initialPage = 1)
    (h1 : fetch 1 = .ok (some l1)) (hne1 : l1 ≠ [])
    (h2 : fetch 2 = .ok (some l2)) (hne2 : l2 ≠ []) :
    refetchAll T cfg fetch
      { items := l1 ++ l2, isLoading := false, error := none,
        hasMore := true, currentPage := 3 } =
      ({ items := l1 ++ l2, isLoading := false, error := none,
         hasMore := true, currentPage := 3 },
       [(1, .ok (some l1)), (2, .ok (some l2))]) := by
  simp [refetchAll, hinit, refetchLoop, h1, h2,
    List.length_eq_zero, hne1, hne2,
    show ((3 : Int) - 1 + 1 - 1).toNat = 2 from by rfl]

/-- C8 witness: the theorem evaluated on a two-page fetch source. -/
theorem refetchAll_rebuilds_two_pages_witness :
    refetchAll Nat cfgBase fetchTwoPages
      { items := [10] ++ [20, 30], isLoading := false, error := none,
        hasMore := true, currentPage := 3 } =
      ({ items := [10] ++ [20, 30], isLoading := false, error := none,
         hasMore := true, currentPage := 3 },
       [(1, .ok (some [10])), (2, .ok (some [20, 30]))]) :=
  refetchAll_rebuilds_two_pages Nat cfgBase fetchTwoPages [10] [20, 30]
    rfl rfl (by decide) rfl (by decide)

/-- A fetch result passing `nonEmptyOk` is a resolved cons. -/
lemma nonEmptyOk_exists (T : Type) (r : FetchResult T)
    (h : nonEmptyOk T r = true) : ∃ x xs, r = .ok (some (x :: xs)) := by
  cases r with
  | err e => simp [nonEmptyOk] at h
  | ok o =>
    cases o with
    | none => simp [nonEmptyOk] at h
    | some l =>
      cases l with
      | nil => simp [nonEmptyOk] at h
      | cons x xs => exact ⟨x, xs, rfl⟩

/-- Returned items distribute over log concatenation. -/
lemma returnedItems_append (T : Type) (l1 l2 : FetchLog T) :
    returnedItems T (l1 ++ l2) = returnedItems T l1 ++ returnedItems T l2 := by
  induction l1 with
  | nil => simp [returnedItems]
  | cons e rest ih => simp [returnedItems, ih]

/-- One `loadMore` whose fetches (if any) all returned non-empty pages
keeps `isLoading` false, appends exactly the returned items, and
advances `currentPage` by the number of fetches performed. -/
lemma loadMore_log_inv (T : Type) (cfg : Config) (fetch : FetchFn T)
    (s : LoaderState T) (hload : s.isLoading = false)
    (hok : ∀ e ∈ (loadMore T cfg fetch s).2, nonEmptyOk T e.2 = true) :
    (loadMore T cfg fetch s).1.isLoading = false ∧
    (loadMore T cfg fetch s).1.items
      = s.items ++ returnedItems T (loadMore T cfg fetch s).2 ∧
    (loadMore T cfg fetch s).1.currentPage
      = s.currentPage + (((loadMore T cfg fetch s).2.length : Nat) : Int) := by
  by_cases hm : s.hasMore = true
  case neg =>
    have hm2 : s.hasMore = false := by revert hm; cases s.hasMore <;> simp
    simp [loadMore, hload, hm2, returnedItems]
  case pos =>
    by_cases hmax : maxPageReached cfg s.currentPage = true
    · simp [loadMore, hload, hm, hmax, returnedItems]
    · have hmax2 : maxPageReached cfg s.currentPage = false := by
        revert hmax; cases maxPageReached cfg s.currentPage <;> simp
      cases hf : fetch s.currentPage with
      | err e =>
        exfalso
        have := hok (s.currentPage, .err e)
          (by simp [loadMore, hload, hm, hmax2, hf])
        simp [nonEmptyOk] at this
      | ok o =>
        cases o with
        | none =>
          exfalso
          have := hok (s.currentPage, .ok none)
            (by simp [loadMore, hload, hm, hmax2, hf])
          simp [nonEmptyOk] at this
        | some l =>
          cases l with
          | nil =>
            exfalso
            have := hok (s.currentPage, .ok (some []))
              (by simp [loadMore, hload, hm, hmax2, hf])
            simp [nonEmptyOk] at this
          | cons x xs =>
            simp [loadMore, hload, hm, hmax2, hf, returnedItems, pageList]

/-- Sequence version of `loadMore_log_inv` over `n` awaited calls. -/
lemma runLoadMores_inv (T : Type) (cfg : Config) (fetch : FetchFn T) :
    ∀ (n : Nat) (s : LoaderState T), s.isLoading = false →
    (∀ e ∈ (runOps T cfg fetch (List.replicate n Op.opLoadMore) s).2,
      nonEmptyOk T e.2 = true) →
    (runOps T cfg fetch (List.replicate n Op.opLoadMore) s).1.isLoading
      = false ∧
    (runOps T cfg fetch (List.replicate n Op.opLoadMore) s).1.items
      = s.items
        ++ returnedItems T
          (runOps T cfg fetch (List.replicate n Op.opLoadMore) s).2 ∧
    (runOps T cfg fetch (List.replicate n Op.opLoadMore) s).1.currentPage
      = s.currentPage
        + (((runOps T cfg fetch
            (List.replicate n Op.opLoadMore) s).2.length : Nat) : Int) := by
  intro n
  induction n with
  | zero => intro s hload _; simp [runOps, returnedItems, hload]
  | succ n ih =>
    intro s hload hok
    rw [List.replicate_succ] at hok ⊢
    simp only [runOps, stepOp] at hok ⊢
    have hstep := loadMore_log_inv T cfg fetch s hload
      (fun e he => hok e (List.mem_append_left _ he))
    obtain ⟨hL1, hI1, hP1⟩ := hstep
    have hrest := ih (loadMore T cfg fetch s).1 hL1
      (fun e he => hok e (List.mem_append_right _ he))
    obtain ⟨hL2, hI2, hP2⟩ := hrest
    refine ⟨hL2, ?_, ?_⟩
    · rw [hI2, hI1, returnedItems_append, List.append_assoc]
    · rw [hP2, hP1]
      push_cast [List.length_append]
      ring

/-- C1: over any number of awaited `loadMore` calls from the freshly
constructed state, if every fetch performed returned a non-empty page,
then `items` is exactly the concatenation of the returned pages in
fetch order and `currentPage` is `initialPage` plus the number of
those fetches. -/
theorem loadMore_seq_concatenates (T : Type) (cfg : Config)
    (fetch : FetchFn T) (n : Nat)
    (hok : ∀ e ∈ (runOps T cfg fetch (List.replicate n Op.opLoadMore)
        (initState T cfg)).2, nonEmptyOk T e.2 = true) :
    (runOps T cfg fetch (List.replicate n Op.opLoadMore)
        (initState T cfg)).1.items
      = returnedItems T
          (runOps T cfg fetch (List.replicate n Op.opLoadMore)
            (initState T cfg)).2 ∧
    (runOps T cfg fetch (List.replicate n Op.opLoadMore)
        (initState T cfg)).1.currentPage
      = cfg.initialPage
        + (((runOps T cfg fetch (List.replicate n Op.opLoadMore)
            (initState T cfg)).2.length : Nat) : Int) := by
  have h := runLoadMores_inv T cfg fetch n (initState T cfg) rfl hok
  exact ⟨by simpa [initState] using h.2.1,
         by simpa [initState] using h.2.2⟩

/-- C1 witness: three awaited calls against a source whose every page
is `[1]` accumulate `[1, 1, 1]` and advance `currentPage` to 4. -/
theorem loadMore_seq_concatenates_witness :
    (runOps Nat cfgBase fetchAllOnes (List.replicate 3 Op.opLoadMore)
        (initState Nat cfgBase)).1.items
      = returnedItems Nat
          (runOps Nat cfgBase fetchAllOnes (List.replicate 3 Op.opLoadMore)
            (initState Nat cfgBase)).2 ∧
    (runOps Nat cfgBase fetchAllOnes (List.replicate 3 Op.opLoadMore)
        (initState Nat cfgBase)).1.currentPage
      = cfgBase.initialPage
        + (((runOps Nat cfgBase fetchAllOnes (List.replicate 3 Op.opLoadMore)
            (initState Nat cfgBase)).2.length : Nat) : Int) :=
  loadMore_seq_concatenates Nat cfgBase fetchAllOnes 3 (by decide)

/-- C2 counterexample: page 1 returns `[7]`, page 2 returns an empty
array, so after two awaited `loadMore` calls `hasMore` is false; yet a
subsequent `refetchAll`, whose only guard is `isLoading`, invokes the
fetch source again (for page 1) with no intervening `reset`. -/
theorem exhausted_then_refetchAll_counterexample :
    (runOps Nat cfgBase fetchOneThenEmpty [Op.opLoadMore, Op.opLoadMore]
        (initState Nat cfgBase)).1.hasMore = false ∧
    (refetchAll Nat cfgBase fetchOneThenEmpty
        (runOps Nat cfgBase fetchOneThenEmpty [Op.opLoadMore, Op.opLoadMore]
          (initState Nat cfgBase)).1).2
      = [(1, .ok (some [7]))] := by
  decide

/-- A single non-`refetchAll`, non-`reset` operation on an exhausted
state performs no fetch and changes nothing. -/
lemma stepOp_exhausted (T : Type) (cfg : Config) (fetch : FetchFn T)
    (op : Op) (s : LoaderState T) (hs : s.hasMore = false)
    (h1 : op ≠ Op.opRefetchAll) (h2 : op ≠ Op.opReset) :
    stepOp T cfg fetch op s = (s, []) := by
  cases op with
  | opLoadMore => simp [stepOp, loadMore, hs]
  | opScroll el =>
    cases el with
    | none => simp [stepOp, checkScroll]
    | some e => simp [stepOp, checkScroll, hs]
  | opFill el =>
    cases el with
    | none => simp [stepOp, checkFill]
    | some e => simp [stepOp, checkFill, hs]
  | opRefetchAll => exact absurd rfl h1
  | opReset => exact absurd rfl h2

/-- C2 (amended): once `hasMore` is false, every sequence of
operations that avoids `refetchAll` and `reset` — awaited `loadMore`
calls, scroll-triggered checks, viewport-fill checks — performs no
fetch-source invocation at all and leaves the state (in particular the
false `hasMore`) unchanged.  `refetchAll` is excluded because it does
invoke the fetch source on an exhausted loader, as the counterexample
shows. -/
theorem exhausted_blocks_fetches (T : Type) (cfg : Config)
    (fetch : FetchFn T) (ops : List Op) (s : LoaderState T)
    (hs : s.hasMore = false)
    (hops : ∀ op ∈ ops, op ≠ Op.opRefetchAll ∧ op ≠ Op.opReset) :
    runOps T cfg fetch ops s = (s, []) := by
  revert hops
  induction ops with
  | nil => intro _; simp [runOps]
  | cons op rest ih =>
    intro hops
    have h := hops op (by simp)
    have hrest := ih (fun o ho => hops o (by simp [ho]))
    simp only [runOps, stepOp_exhausted T cfg fetch op s hs h.1 h.2, hrest]
    simp

/-- C2 witness: the amended theorem evaluated on an exhausted state
against a `loadMore`, a scroll check and a fill check. -/
theorem exhausted_blocks_fetches_witness :
    runOps Nat cfgBase fetchOneThenEmpty
      [Op.opLoadMore, Op.opScroll (some ⟨0, 100, 50⟩),
       Op.opFill (some ⟨10, 50⟩)]
      { items := [7], isLoading := false, error := none, hasMore := false,
        currentPage := 2 } =
      ({ items := [7], isLoading := false, error := none, hasMore := false,
         currentPage := 2 }, []) :=
  exhausted_blocks_fetches Nat cfgBase fetchOneThenEmpty _ _ rfl (by decide)

/-- C3 counterexample: with pages 1 and 2 previously loaded
(`currentPage = 3`) and the fetch source now returning an empty page 1,
`refetchAll` — which is not `reset` — sets `currentPage` to 1,
strictly below its previous value 3. -/
theorem currentPage_decrease_counterexample :
    (refetchAll Nat cfgBase fetchAllEmpty
        { items := [1, 2], isLoading := false, error := none,
          hasMore := true, currentPage := 3 }).1.currentPage = 1 ∧
    ¬ ((3 : Int) ≤ (refetchAll Nat cfgBase fetchAllEmpty
        { items := [1, 2], isLoading := false, error := none,
          hasMore := true, currentPage := 3 }).1.currentPage) := by
  decide

/-- `loadMore` never lowers `currentPage`. -/
lemma loadMore_page_mono (T : Type) (cfg : Config) (fetch : FetchFn T)
    (s : LoaderState T) :
    s.currentPage ≤ (loadMore T cfg fetch s).1.currentPage := by
  by_cases h0 : (s.isLoading || !s.hasMore) = true
  · simp [loadMore, h0]
  · have h0f : (s.isLoading || !s.hasMore) = false := by
      revert h0; cases s.isLoading || !s.hasMore <;> simp
    by_cases hmax : maxPageReached cfg s.currentPage = true
    · simp [loadMore, h0f, hmax]
    · have hmax2 : maxPageReached cfg s.currentPage = false := by
        revert hmax; cases maxPageReached cfg s.currentPage <;> simp
      cases hf : fetch s.currentPage with
      | err e => simp [loadMore, h0f, hmax2, hf]
      | ok o =>
        cases o with
        | none => simp [loadMore, h0f, hmax2, hf]
        | some l =>
          by_cases hl : l.length = 0 <;>
            simp [loadMore, h0f, hmax2, hf, hl]

/-- No operation other than `refetchAll` and `reset` lowers
`currentPage`. -/
lemma stepOp_page_mono (T : Type) (cfg : Config) (fetch : FetchFn T)
    (op : Op) (s : LoaderState T)
    (h1 : op ≠ Op.opRefetchAll) (h2 : op ≠ Op.opReset) :
    s.currentPage ≤ (stepOp T cfg fetch op s).1.currentPage := by
  cases op with
  | opLoadMore => exact loadMore_page_mono T cfg fetch s
  | opScroll el =>
    cases el with
    | none => simp [stepOp, checkScroll]
    | some e =>
      simp only [stepOp, checkScroll]
      by_cases hg : (s.isLoading || !s.hasMore) = true
      · simp [hg]
      · have hgf : (s.isLoading || !s.hasMore) = false := by
          revert hg; cases s.isLoading || !s.hasMore <;> simp
        by_cases hmax : maxPageReached cfg s.currentPage = true
        · simp [hgf, hmax]
        · have hmax2 : maxPageReached cfg s.currentPage = false := by
            revert hmax; cases maxPageReached cfg s.currentPage <;> simp
          by_cases hd : e.scrollHeight - e.scrollTop - e.clientHeight
              < cfg.threshold
          · simpa [hgf, hmax2, hd] using loadMore_page_mono T cfg fetch s
          · simp [hgf, hmax2, hd]
  | opFill el =>
    cases el with
    | none => simp [stepOp, checkFill]
    | some e =>
      simp only [stepOp, checkFill]
      by_cases hg : (s.isLoading || !s.hasMore) = true
      · simp [hg]
      · have hgf : (s.isLoading || !s.hasMore) = false := by
          revert hg; cases s.isLoading || !s.hasMore <;> simp
        by_cases hd : e.scrollHeight ≤ e.clientHeight
        · simpa [hgf, hd] using loadMore_page_mono T cfg fetch s
        · simp [hgf, hd]
  | opRefetchAll => exact absurd rfl h1
  | opReset => exact absurd rfl h2

/-- C3 (amended): across every sequence of operations avoiding
`refetchAll` and `reset`, `currentPage` never decreases.  `reset`
restores it to `initialPage` by design; `refetchAll` can genuinely
lower it, as the counterexample shows, when a previously loaded page
comes back empty during the re-fetch loop. -/
theorem currentPage_monotone (T : Type) (cfg : Config)
    (fetch : FetchFn T) (ops : List Op) (s : LoaderState T)
    (hops : ∀ op ∈ ops, op ≠ Op.opRefetchAll ∧ op ≠ Op.opReset) :
    s.currentPage ≤ (runOps T cfg fetch ops s).1.currentPage := by
  revert s hops
  induction ops with
  | nil => intro s _; simp [runOps]
  | cons op rest ih =>
    intro s hops
    have h := hops op (by simp)
    have h1 := stepOp_page_mono T cfg fetch op s h.1 h.2
    have h2 := ih (stepOp T cfg fetch op s).1
      (fun o ho => hops o (by simp [ho]))
    simp only [runOps]
    exact le_trans h1 h2

/-- C3 witness: the amended theorem evaluated on two `loadMore` calls
and a scroll check against the two-page source. -/
theorem currentPage_monotone_witness :
    (initState Nat cfgBase).currentPage ≤
      (runOps Nat cfgBase fetchTwoPages
        [Op.opLoadMore, Op.opLoadMore, Op.opScroll (some ⟨0, 100, 50⟩)]
        (initState Nat cfgBase)).1.currentPage :=
  currentPage_monotone Nat cfgBase fetchTwoPages _ _ (by decide)

/-- If every page before `k` re-fetches non-empty and page `k` (still
within the target range) rejects, the re-fetch loop aborts with that
rejection. -/
lemma refetchLoop_err (T : Type) (fetch : FetchFn T)
    (targetPage k : Int) (e : String)
    (hk : k ≤ targetPage) (herr : fetch k = .err e) :
    ∀ (fuel : Nat) (page : Int) (acc : List T), page ≤ k →
    k - page < (fuel : Int) →
    (∀ p, page ≤ p → p < k → nonEmptyOk T (fetch p) = true) →
    ∃ log, refetchLoop T fetch targetPage fuel page acc = .failed e log := by
  intro fuel
  induction fuel with
  | zero => intro page acc h1 h2 _; exfalso; omega
  | succ n ih =>
    intro page acc h1 h2 hpre
    by_cases hpk : page = k
    · subst hpk
      exact ⟨[(page, .err e)],
        by simp [refetchLoop, le_trans h1 hk, herr]⟩
    · have hlt : page < k := lt_of_le_of_ne h1 hpk
      obtain ⟨x, xs, hx⟩ := nonEmptyOk_exists T _ (hpre page le_rfl hlt)
      have hcond : page ≤ targetPage := by omega
      obtain ⟨log, hlog⟩ := ih (page + 1) (acc ++ (x :: xs))
        (by omega) (by push_cast at h2 ⊢; omega)
        (fun p hp1 hp2 => hpre p (by omega) hp2)
      exact ⟨(page, .ok (some (x :: xs))) :: log,
        by simp [refetchLoop, hcond, hx, hlog]⟩

/-- C5: from a state with no fetch in flight, if during the re-fetch
loop of `refetchAll` every page before some page `k` in the target
range returns non-empty but page `k` rejects, then the pages
accumulated before the failure are discarded entirely: `items` ends
empty (not the pages fetched before the failure), `currentPage` keeps its previous
value, `hasMore` is untouched, the rejection is captured into `error`,
and `isLoading` ends false. -/
theorem refetchAll_failure_discards (T : Type) (cfg : Config)
    (fetch : FetchFn T) (s : LoaderState T) (k : Int) (e : String)
    (hload : s.isLoading = false)
    (hk1 : cfg.initialPage ≤ k) (hk2 : k ≤ s.currentPage - 1)
    (hpre : ∀ p, cfg.initialPage ≤ p → p < k → nonEmptyOk T (fetch p) = true)
    (herr : fetch k = .err e) :
    (refetchAll T cfg fetch s).1 =
      { items := [], isLoading := false, error := some e,
        hasMore := s.hasMore, currentPage := s.currentPage } := by
  obtain ⟨log, hlog⟩ := refetchLoop_err T fetch (s.currentPage - 1) k e hk2
    herr (s.currentPage - 1 + 1 - cfg.initialPage).toNat cfg.initialPage []
    hk1 (by omega) hpre
  rw [show s.currentPage - 1 + 1 - cfg.initialPage
      = s.currentPage - cfg.initialPage from by ring] at hlog
  simp [refetchAll, hload, hlog]

/-- C5 witness: the theorem evaluated with page 1 re-fetching `[5]`
and page 2 rejecting, from the state that had loaded pages 1 and 2. -/
theorem refetchAll_failure_discards_witness :
    (refetchAll Nat cfgBase fetchOkThenErr
        { items := [5, 6], isLoading := false, error := none,
          hasMore := true, currentPage := 3 }).1 =
      { items := [], isLoading := false, error := some "boom",
        hasMore := true, currentPage := 3 } :=
  refetchAll_failure_discards Nat cfgBase fetchOkThenErr
    { items := [5, 6], isLoading := false, error := none,
      hasMore := true, currentPage := 3 } 2 "boom" rfl (by decide)
    (by decide)
    (by intro p h1 h2
        have h1b : (1 : Int) ≤ p := h1
        have hp : p = 1 := by omega
        subst hp
        rfl)
    rfl

/-- C7 counterexample: with `maxPage = 1` and `initialPage = 1` the
claimed lifetime bound is `1 - 1 + 1 = 1` fetch, but a rejecting fetch
source leaves `hasMore` true and `currentPage` unchanged, so two
awaited `loadMore` calls already perform 2 fetches with no
intervening `reset`. -/
theorem fetch_bound_counterexample :
    (runOps Nat cfgCap1 fetchAllErr [Op.opLoadMore, Op.opLoadMore]
        (initState Nat cfgCap1)).2.length = 2 ∧
    ¬ (((runOps Nat cfgCap1 fetchAllErr [Op.opLoadMore, Op.opLoadMore]
        (initState Nat cfgCap1)).2.length : Int) ≤ 1 - 1 + 1) := by
  decide

/-- Under the cap `maxPage = N` and a never-rejecting fetch source,
one `loadMore` consumes at least one unit of the fetch budget per
fetch it performs: a non-empty page advances `currentPage`, an empty
or null page clears `hasMore`, and the guard paths fetch nothing. -/
lemma loadMore_budget (T : Type) (cfg : Config) (fetch : FetchFn T)
    (N : Int) (s : LoaderState T) (hmax : cfg.maxPage = some N)
    (hfetch : ∀ p, notErr T (fetch p) = true) :
    (loadMore T cfg fetch s).2.length
      + fetchesLeft T N (loadMore T cfg fetch s).1 ≤ fetchesLeft T N s := by
  by_cases hL : s.isLoading = true
  · simp [loadMore, hL]
  · have hL2 : s.isLoading = false := by
      revert hL; cases s.isLoading <;> simp
    by_cases hm : s.hasMore = true
    case neg =>
      have hm2 : s.hasMore = false := by
        revert hm; cases s.hasMore <;> simp
      simp [loadMore, hL2, hm2]
    case pos =>
      by_cases hcap : maxPageReached cfg s.currentPage = true
      · simp [loadMore, hL2, hm, hcap, fetchesLeft]
      · have hcap2 : maxPageReached cfg s.currentPage = false := by
          revert hcap; cases maxPageReached cfg s.currentPage <;> simp
        have hpage : s.currentPage ≤ N := by
          have h := hcap2
          simp [maxPageReached, hmax] at h
          omega
        cases hf : fetch s.currentPage with
        | err e =>
          exfalso
          have h := hfetch s.currentPage
          rw [hf] at h
          simp [notErr] at h
        | ok o =>
          cases o with
          | none =>
            simp [loadMore, hL2, hm, hcap2, hf, fetchesLeft]
            omega
          | some l =>
            by_cases hl : l.length = 0
            · simp [loadMore, hL2, hm, hcap2, hf, hl, fetchesLeft]
              omega
            · simp [loadMore, hL2, hm, hcap2, hf, hl, fetchesLeft]
              omega

/-- `loadMore_budget` lifted to any single operation other than
`refetchAll` and `reset`. -/
lemma stepOp_budget (T : Type) (cfg : Config) (fetch : FetchFn T)
    (N : Int) (op : Op) (s : LoaderState T) (hmax : cfg.maxPage = some N)
    (hfetch : ∀ p, notErr T (fetch p) = true)
    (h1 : op ≠ Op.opRefetchAll) (h2 : op ≠ Op.opReset) :
    (stepOp T cfg fetch op s).2.length
      + fetchesLeft T N (stepOp T cfg fetch op s).1 ≤ fetchesLeft T N s := by
  cases op with
  | opLoadMore => exact loadMore_budget T cfg fetch N s hmax hfetch
  | opScroll el =>
    cases el with
    | none => simp [stepOp, checkScroll]
    | some e =>
      cases hL : s.isLoading with
      | true => simp [stepOp, checkScroll, hL]
      | false =>
        cases hm : s.hasMore with
        | false => simp [stepOp, checkScroll, hL, hm]
        | true =>
          by_cases hcap : maxPageReached cfg s.currentPage = true
          · simp [stepOp, checkScroll, hL, hm, hcap, fetchesLeft]
          · have hcap2 : maxPageReached cfg s.currentPage = false := by
              revert hcap; cases maxPageReached cfg s.currentPage <;> simp
            by_cases hd : e.scrollHeight - e.scrollTop - e.clientHeight
                < cfg.threshold
            · simpa [stepOp, checkScroll, hL, hm, hcap2, hd] using
                loadMore_budget T cfg fetch N s hmax hfetch
            · simp [stepOp, checkScroll, hL, hm, hcap2, hd]
  | opFill el =>
    cases el with
    | none => simp [stepOp, checkFill]
    | some e =>
      cases hL : s.isLoading with
      | true => simp [stepOp, checkFill, hL]
      | false =>
        cases hm : s.hasMore with
        | false => simp [stepOp, checkFill, hL, hm]
        | true =>
          by_cases hd : e.scrollHeight ≤ e.clientHeight
          · simpa [stepOp, checkFill, hL, hm, hd] using
              loadMore_budget T cfg fetch N s hmax hfetch
          · simp [stepOp, checkFill, hL, hm, hd]
  | opRefetchAll => exact absurd rfl h1
  | opReset => exact absurd rfl h2

/-- Sequence version of `stepOp_budget`: total fetches performed are
bounded by the fetch budget of the starting state. -/
lemma runOps_budget (T : Type) (cfg : Config) (fetch : FetchFn T)
    (N : Int) (hmax : cfg.maxPage = some N)
    (hfetch : ∀ p, notErr T (fetch p) = true) :
    ∀ (ops : List Op) (s : LoaderState T),
    (∀ op ∈ ops, op ≠ Op.opRefetchAll ∧ op ≠ Op.opReset) →
    (runOps T cfg fetch ops s).2.length ≤ fetchesLeft T N s := by
  intro ops
  induction ops with
  | nil => intro s _; simp [runOps]
  | cons op rest ih =>
    intro s hops
    have h := hops op (by simp)
    have hstep := stepOp_budget T cfg fetch N op s hmax hfetch h.1 h.2
    have hrest := ih (stepOp T cfg fetch op s).1
      (fun o ho => hops o (by simp [ho]))
    simp only [runOps, List.length_append]
    omega

/-- C7 (amended): with `maxPage = N` (and `initialPage ≤ N`), over
every sequence of `loadMore` calls and scroll- or fill-triggered
checks — no `refetchAll` or `reset` — against a fetch source that
never rejects (its pages may be non-empty, empty or null), the loader
performs at most `N - initialPage + 1` fetches.  The exclusions are
forced: a rejecting fetch lets `loadMore` retry the same page without
bound (see the counterexample), and `refetchAll` performs additional
fetches of its own.  Empty and null results stay within the bound
because they clear `hasMore`, blocking all further fetches. -/
theorem fetch_bound_capped (T : Type) (cfg : Config) (fetch : FetchFn T)
    (N : Int) (ops : List Op)
    (hmax : cfg.maxPage = some N) (hinit : cfg.initialPage ≤ N)
    (hfetch : ∀ p, notErr T (fetch p) = true)
    (hops : ∀ op ∈ ops, op ≠ Op.opRefetchAll ∧ op ≠ Op.opReset) :
    (((runOps T cfg fetch ops (initState T cfg)).2.length : Nat) : Int)
      ≤ N - cfg.initialPage + 1 := by
  have h := runOps_budget T cfg fetch N hmax hfetch ops (initState T cfg)
    hops
  have hR : fetchesLeft T N (initState T cfg)
      = (N + 1 - cfg.initialPage).toNat := by
    simp [fetchesLeft, initState]
  rw [hR] at h
  omega

/-- C7 witness: three `loadMore` calls with `maxPage = 2` against a
source whose page 1 is non-empty and page 2 empty perform exactly two
fetches (the empty page clears `hasMore` and blocks the third call),
within the bound `2 - 1 + 1`. -/
theorem fetch_bound_capped_witness :
    (((runOps Nat cfgCap2 fetchOneThenEmpty
        (List.replicate 3 Op.opLoadMore)
        (initState Nat cfgCap2)).2.length : Nat) : Int)
      ≤ 2 - cfgCap2.initialPage + 1 :=
  fetch_bound_capped Nat cfgCap2 fetchOneThenEmpty 2 _ rfl (by decide)
    (by intro p
        simp only [fetchOneThenEmpty]
        split_ifs <;> rfl)
    (by decide)

/-- A call arriving before the pending fire time `r + L` in the state
whose last execution was at `r` neither executes nor moves the fire
time: it cancels the pending timeout and reschedules it for the same
instant `r + L`. -/
lemma throttleCall_saturated (L r t : Nat) (hr : r ≠ 0) (ht : t < r + L) :
    throttleCall L { lastRan := some r, timer := some (r + L) } t =
      ({ lastRan := some r, timer := some (r + L) }, []) := by
  have hfire : fireDue L { lastRan := some r, timer := some (r + L) } t
      = ({ lastRan := some r, timer := some (r + L) }, []) := by
    simp [fireDue, show ¬(r + L ≤ t) from by omega]
  simp [throttleCall, hfire, lastRanFalsy, hr,
    show max t (r + L) = r + L from by omega]

/-- C9: ten scroll events at nondecreasing times `t0 ≤ … ≤ t9`, all
within 50ms of the first, delivered to a fresh 200ms throttle, produce
exactly two executions of the wrapped check: the first call runs
immediately at `t0`, and one deferred run fires at the window boundary
`t0 + 200`; in particular at most one execution occurs inside the
200ms window that the burst falls in.  The hypothesis `0 < t0`
reflects that the clock readings of `Date.now()` are positive. -/
theorem throttle_burst_collapses (t0 t1 t2 t3 t4 t5 t6 t7 t8 t9 : Nat)
    (hpos : 0 < t0)
    (h01 : t0 ≤ t1) (h12 : t1 ≤ t2) (h23 : t2 ≤ t3) (h34 : t3 ≤ t4)
    (h45 : t4 ≤ t5) (h56 : t5 ≤ t6) (h67 : t6 ≤ t7) (h78 : t7 ≤ t8)
    (h89 : t8 ≤ t9) (hburst : t9 ≤ t0 + 50) :
    throttleTrace 200 [t0, t1, t2, t3, t4, t5, t6, t7, t8, t9]
      = [t0, t0 + 200] := by
  have c0 : throttleCall 200 { lastRan := none, timer := none } t0
      = ({ lastRan := some t0, timer := none }, [t0]) := by
    simp [throttleCall, fireDue, lastRanFalsy]
  have c1 : throttleCall 200 { lastRan := some t0, timer := none } t1
      = ({ lastRan := some t0, timer := some (t0 + 200) }, []) := by
    simp [throttleCall, fireDue, lastRanFalsy,
      show (t0 == 0) = false from by simpa using Nat.pos_iff_ne_zero.mp hpos,
      show max t1 (t0 + 200) = t0 + 200 from by omega]
  have hr := Nat.pos_iff_ne_zero.mp hpos
  have s2 := throttleCall_saturated 200 t0 t2 hr (by omega)
  have s3 := throttleCall_saturated 200 t0 t3 hr (by omega)
  have s4 := throttleCall_saturated 200 t0 t4 hr (by omega)
  have s5 := throttleCall_saturated 200 t0 t5 hr (by omega)
  have s6 := throttleCall_saturated 200 t0 t6 hr (by omega)
  have s7 := throttleCall_saturated 200 t0 t7 hr (by omega)
  have s8 := throttleCall_saturated 200 t0 t8 hr (by omega)
  have s9 := throttleCall_saturated 200 t0 t9 hr (by omega)
  have hflush : throttleFlush 200
      { lastRan := some t0, timer := some (t0 + 200) } = [t0 + 200] := by
    simp [throttleFlush,
      show (200 : Int) ≤ ((t0 + 200 : Nat) : Int) - (t0 : Nat) from by
        push_cast; omega]
  simp [throttleTrace, throttleRun, c0, c1, s2, s3, s4, s5, s6, s7, s8, s9,
    hflush]

/-- C9 witness: the theorem evaluated on ten calls at 5ms spacing
starting at clock reading 1000. -/
theorem throttle_burst_collapses_witness :
    throttleTrace 200
      [1000, 1005, 1010, 1015, 1020, 1025, 1030, 1035, 1040, 1045]
      = [1000, 1000 + 200] :=
  throttle_burst_collapses 1000 1005 1010 1015 1020 1025 1030 1035 1040
    1045 (by decide) (by decide) (by decide) (by decide) (by decide)
    (by decide) (by decide) (by decide) (by decide) (by decide) (by decide)

end InfiniteScroll

